import Mathlib

/- Verification of the state/job lifecycle engine of the tiktok-monitoring-bot
repository: a shallow embedding of src/state_manager.py, src/cache_manager.py,
src/monitor.py (detection cycle), src/analytics.py (collection cycle) and the
data types of src/tiktok_client.py, together with theorems settling the spec
claims about them.  Timestamps are abstracted as integers (ISO strings in the
source compare chronologically exactly as the integers do); external I/O
(yt-dlp, Slack, the filesystem, git) is represented by explicit outcome values,
emitted notification lists and filesystem-operation lists. -/

namespace TikTokMonitor

/-! ### Association lists, modelling Python dicts (insertion ordered) -/

/-- Lookup in an insertion-ordered association list, as `d[k]` / `k in d`. -/
def lookupA {α : Type} : List (String × α) → String → Option α
  | [], _ => none
  | (k, v) :: rest, key => if k = key then some v else lookupA rest key

/-- Assignment `d[k] = v` on an insertion-ordered association list: an existing
key is updated in place, a new key is appended at the end (Python dict
semantics). -/
def setA {α : Type} : List (String × α) → String → α → List (String × α)
  | [], key, v => [(key, v)]
  | (k, w) :: rest, key, v =>
      if k = key then (k, v) :: rest else (k, w) :: setA rest key v

/-! ### Data model (src/tiktok_client.py dataclasses, src/state_manager.py doc) -/

/-- VideoSummary dataclass of src/tiktok_client.py (flat-playlist listing). -/
structure VideoSummary where
  video_id : String
  url : String
  title : String
  timestamp : Option Int := none
deriving DecidableEq, Repr

/-- VideoAnalytics dataclass of src/tiktok_client.py: every count field is
optional and defaults to None. -/
structure VideoAnalytics where
  video_id : String
  url : String
  title : String
  view_count : Option Int := none
  like_count : Option Int := none
  comment_count : Option Int := none
  repost_count : Option Int := none
  save_count : Option Int := none
  upload_date : Option String := none
deriving DecidableEq, Repr

/-- A pending analytics job as built in src/monitor.py lines 122-132. -/
structure PendingJob where
  video_id : String
  username : String
  video_url : String
  detected_at : Int
  analytics_due_at : Int
  title : String
  retry_count : Nat
deriving DecidableEq, Repr

/-- A completed analytics record as built in src/analytics.py lines 100-114
(success) and 142-156 (retry exhaustion, all metric fields None). -/
structure CompletedRecord where
  video_id : String
  username : String
  video_url : String
  title : String
  detected_at : Int
  analytics_collected_at : Int
  view_count : Option Int
  like_count : Option Int
  comment_count : Option Int
  repost_count : Option Int
  save_count : Option Int
deriving DecidableEq, Repr

/-- Per-account durable record: the known_video_ids list. -/
structure Account where
  known_video_ids : List String
deriving DecidableEq, Repr

/-- The durable state document of src/state_manager.py (typed view). -/
structure StateDoc where
  version : Nat
  accounts : List (String × Account)
  pending_analytics : List PendingJob
  completed_analytics : List CompletedRecord
deriving DecidableEq, Repr

/-- The fresh default durable document (_default_state in state_manager.py). -/
def default_state : StateDoc := ⟨1, [], [], []⟩

/-- Per-account ephemeral record (cache_manager.py). -/
structure AccountEphemeral where
  last_checked : Option Int
  last_check_success : Bool
  consecutive_failures : Nat
deriving DecidableEq, Repr

/-- The ephemeral state document of src/cache_manager.py. -/
structure EphemeralDoc where
  accounts : List (String × AccountEphemeral)
deriving DecidableEq, Repr

/-- The fresh default ephemeral document (_default_ephemeral). -/
def default_ephemeral : EphemeralDoc := ⟨[]⟩

/-- The default per-account ephemeral record created by get_account_ephemeral. -/
def accountEphemeralDefault : AccountEphemeral := ⟨none, false, 0⟩

/-- get_account_ephemeral of src/cache_manager.py: lazily inserts the default
record, returning the updated document and the record for the account. -/
def get_account_ephemeral (eph : EphemeralDoc) (username : String) :
    EphemeralDoc × AccountEphemeral :=
  let accounts :=
    if (lookupA eph.accounts username).isSome then eph.accounts
    else setA eph.accounts username accountEphemeralDefault
  (⟨accounts⟩, (lookupA accounts username).getD accountEphemeralDefault)

/-! ### External collaborators as outcome values -/

/-- Outcome of client.list_recent_videos for one account in monitor.py: a
successful listing, or one of the exception classes caught there
(AccountNotFoundError; TikTokClientError covering RateLimitError and generic
failures; any other unexpected exception). -/
inductive ListOutcome where
  | ok (videos : List VideoSummary)
  | accountNotFound
  | clientError
  | unexpected
deriving DecidableEq

/-- Outcome of client.get_video_analytics for one job in analytics.py: success
or a TikTokClientError (the only exception class caught there). -/
inductive FetchOutcome where
  | ok (a : VideoAnalytics)
  | clientError
deriving DecidableEq

/-- The tagged content of a notifier.notify_error message (the source formats a
fixed template string over these fields). -/
inductive ErrorMessage where
  | accountUnavailable (username : String)
  | analyticsRetriesExhausted (video_id username : String)
deriving DecidableEq, Repr

/-- A notification attempt handed to the Slack notifier (whether the webhook
call succeeds never affects state, so only the attempt is modelled). -/
inductive Notification where
  | newPost (username video_id video_url title : String) (detected_at : Int)
  | analyticsReport (username video_url title : String) (detected_at : Int)
      (view_count like_count comment_count repost_count save_count : Option Int)
  | errorNotice (msg : ErrorMessage)
deriving DecidableEq, Repr

/-! ### Detection cycle (src/monitor.py main, lines 88-182) -/

/-- The body of the per-account loop of monitor.py main: ensure the durable
account record and the ephemeral record exist, then branch on the extraction
outcome exactly as the try/except chain does.  Returns the updated durable
document, the updated ephemeral document, and the notifications attempted. -/
def processAccount (st : StateDoc) (eph : EphemeralDoc) (username : String)
    (outcome : ListOutcome) (now : Int) (delay : Int) :
    StateDoc × EphemeralDoc × List Notification :=
  let accounts0 :=
    if (lookupA st.accounts username).isSome then st.accounts
    else setA st.accounts username ⟨[]⟩
  let account := (lookupA accounts0 username).getD ⟨[]⟩
  let ephAcct := get_account_ephemeral eph username
  match outcome with
  | .ok videos =>
      let knownIds := account.known_video_ids
      let ephSuccess : EphemeralDoc :=
        ⟨setA ephAcct.1.accounts username ⟨some now, true, 0⟩⟩
      if knownIds.isEmpty then
        ({ st with accounts := setA accounts0 username ⟨videos.map (·.video_id)⟩ },
         ephSuccess, [])
      else
        let newVideos := videos.filter (fun v => !(knownIds.contains v.video_id))
        let newJobs := newVideos.map (fun v =>
          ({ video_id := v.video_id, username := username, video_url := v.url,
             detected_at := now, analytics_due_at := now + delay,
             title := v.title, retry_count := 0 } : PendingJob))
        ({ st with
             accounts := setA accounts0 username ⟨knownIds ++ newVideos.map (·.video_id)⟩,
             pending_analytics := st.pending_analytics ++ newJobs },
         ephSuccess,
         newVideos.map (fun v => Notification.newPost username v.video_id v.url v.title now))
  | .accountNotFound =>
      let failures := ephAcct.2.consecutive_failures + 1
      ({ st with accounts := accounts0 },
       ⟨setA ephAcct.1.accounts username ⟨some now, false, failures⟩⟩,
       if 5 ≤ failures then [.errorNotice (.accountUnavailable username)] else [])
  | .clientError =>
      let failures := ephAcct.2.consecutive_failures + 1
      ({ st with accounts := accounts0 },
       ⟨setA ephAcct.1.accounts username ⟨some now, false, failures⟩⟩, [])
  | .unexpected =>
      let failures := ephAcct.2.consecutive_failures + 1
      ({ st with accounts := accounts0 },
       ⟨setA ephAcct.1.accounts username ⟨some now, false, failures⟩⟩, [])

/-- One iteration of the account loop, threading durable state, ephemeral
state and the accumulated notification attempts. -/
def detectStep (client : String → ListOutcome) (now delay : Int)
    (acc : StateDoc × EphemeralDoc × List Notification) (u : String) :
    StateDoc × EphemeralDoc × List Notification :=
  let r := processAccount acc.1 acc.2.1 u (client u) now delay
  (r.1, r.2.1, acc.2.2 ++ r.2.2)

/-- One full detection cycle: fold the account loop over the configured
account list in order, accumulating attempted notifications. -/
def detectionCycle (st : StateDoc) (eph : EphemeralDoc) (usernames : List String)
    (client : String → ListOutcome) (now : Int) (delay : Int) :
    StateDoc × EphemeralDoc × List Notification :=
  usernames.foldl (detectStep client now delay) (st, eph, [])

/-- The body of the per-job loop of analytics.py main, threading the
still_pending list, the completed_analytics list and the attempted
notifications. -/
def collectStep (fetch : String → FetchOutcome) (now : Int) (maxRetries : Nat)
    (acc : List PendingJob × List CompletedRecord × List Notification)
    (job : PendingJob) :
    List PendingJob × List CompletedRecord × List Notification :=
  if now < job.analytics_due_at then
    (acc.1 ++ [job], acc.2.1, acc.2.2)
  else
    match fetch job.video_url with
    | .ok a =>
        (acc.1,
         acc.2.1 ++ [⟨job.video_id, job.username, job.video_url, job.title,
                      job.detected_at, now, a.view_count, a.like_count,
                      a.comment_count, a.repost_count, a.save_count⟩],
         acc.2.2 ++ [.analyticsReport job.username job.video_url job.title
                      job.detected_at a.view_count a.like_count a.comment_count
                      a.repost_count a.save_count])
    | .clientError =>
        let rc := job.retry_count + 1
        if maxRetries ≤ rc then
          (acc.1,
           acc.2.1 ++ [⟨job.video_id, job.username, job.video_url, job.title,
                        job.detected_at, now, none, none, none, none, none⟩],
           acc.2.2 ++ [.errorNotice (.analyticsRetriesExhausted job.video_id job.username)])
        else
          (acc.1 ++ [{ job with retry_count := rc }], acc.2.1, acc.2.2)

/-- Python's negative-index slice lst[-n:] as both prune sites use it: for
n = 0 it is lst[0:], the whole list (since -0 == 0); for n > 0 it is the last
n elements. -/
def sliceLast {α : Type} (l : List α) (n : Nat) : List α :=
  if n = 0 then l else l.drop (l.length - n)

/-- One full collection cycle: process every pending job in order, replace
pending_analytics with still_pending, then prune completed history exactly as
analytics.py lines 169-174 do (the [-max:] slice applied only when the length
exceeds the limit). -/
def collectionCycle (st : StateDoc) (fetch : String → FetchOutcome) (now : Int)
    (maxRetries maxCompleted : Nat) : StateDoc × List Notification :=
  let r := st.pending_analytics.foldl (collectStep fetch now maxRetries)
    ([], st.completed_analytics, [])
  let completed :=
    if maxCompleted < r.2.1.length then sliceLast r.2.1 maxCompleted
    else r.2.1
  ({ st with pending_analytics := r.1, completed_analytics := completed }, r.2.2)

/-- A sequence of collection cycles, each with its own fetch outcomes and time. -/
def runCollectionCycles (st : StateDoc)
    (cycles : List ((String → FetchOutcome) × Int)) (maxRetries maxCompleted : Nat) :
    StateDoc :=
  cycles.foldl (fun s c => (collectionCycle s c.1 c.2 maxRetries maxCompleted).1) st

/-! ### Durable store: load (src/state_manager.py load_state) -/

/-- Filesystem operations performed by save_state, in order. -/
inductive FsOp where
  | mkdirParents (path : String)
  | writeState (path : String) (doc : StateDoc)
  | rename (src dst : String)
deriving DecidableEq, Repr

/-- save_state of src/state_manager.py: prune completed_analytics with the
[-max_completed:] slice when over the limit (for max_completed = 0 that slice
keeps the whole list), then mkdir the parent and write the document directly
to the target path (p.write_text).  Returns the document as written together
with the filesystem operations performed. -/
def save_state (st : StateDoc) (path : String) (max_completed : Nat) :
    StateDoc × List FsOp :=
  let pruned :=
    if max_completed < st.completed_analytics.length then
      { st with completed_analytics := sliceLast st.completed_analytics max_completed }
    else st
  (pruned, [.mkdirParents path, .writeState path pruned])

/-- Whether a filesystem plan contains a write directly to the given path. -/
def writes_target_directly (ops : List FsOp) (target : String) : Bool :=
  ops.any fun op =>
    match op with
    | .writeState p _ => p = target
    | _ => false

/-- Whether a filesystem plan contains any rename step. -/
def uses_rename (ops : List FsOp) : Bool :=
  ops.any fun op =>
    match op with
    | .rename _ _ => true
    | _ => false

/-! ### Serialization and the commit gate (src/state_manager.py lines 83-96) -/

/-- JSON string-character escaping as json.dumps performs it (ensure_ascii is
False, so other characters pass through unchanged). -/
def escapeJsonChar (c : Char) : String :=
  if c = '\\' then "\\\\"
  else if c = '"' then "\\\""
  else if c = '\n' then "\\n"
  else if c = '\t' then "\\t"
  else if c = '\r' then "\\r"
  else String.singleton c

/-- Escape a whole string for JSON output. -/
def escapeJsonString (s : String) : String :=
  String.join (s.toList.map escapeJsonChar)

/-- A JSON string literal. -/
def jstr (s : String) : String := "\"" ++ escapeJsonString s ++ "\""

/-- An optional count serialized as a JSON number or null. -/
def joptInt : Option Int → String
  | none => "null"
  | some n => toString n

/-- Key order of the accounts object under sort_keys=True: items sorted by
username. -/
def accountKeyLe (a b : String × Account) : Prop := a.1 ≤ b.1

instance : DecidableRel accountKeyLe := fun a b =>
  inferInstanceAs (Decidable (a.1 ≤ b.1))

/-- The accounts items in the order json.dumps(..., sort_keys=True) emits
them. -/
def sortAccounts (l : List (String × Account)) : List (String × Account) :=
  List.insertionSort accountKeyLe l

/-- Serialize one account record (its single key is known_video_ids). -/
def serializeAccount (a : Account) : String :=
  "\x7b\"known_video_ids\": ["
    ++ String.intercalate ", " (a.known_video_ids.map jstr) ++ "]\x7d"

/-- Serialize the accounts mapping with keys sorted. -/
def serializeAccountsObj (l : List (String × Account)) : String :=
  "\x7b" ++ String.intercalate ", "
    ((sortAccounts l).map (fun p => jstr p.1 ++ ": " ++ serializeAccount p.2))
    ++ "\x7d"

/-- Serialize one pending job, keys in sorted order. -/
def serializeJob (j : PendingJob) : String :=
  "\x7b" ++ String.intercalate ", "
    [ "\"analytics_due_at\": " ++ toString j.analytics_due_at
    , "\"detected_at\": " ++ toString j.detected_at
    , "\"retry_count\": " ++ toString j.retry_count
    , "\"title\": " ++ jstr j.title
    , "\"username\": " ++ jstr j.username
    , "\"video_id\": " ++ jstr j.video_id
    , "\"video_url\": " ++ jstr j.video_url ] ++ "\x7d"

/-- Serialize one completed record, keys in sorted order. -/
def serializeCompleted (c : CompletedRecord) : String :=
  "\x7b" ++ String.intercalate ", "
    [ "\"analytics_collected_at\": " ++ toString c.analytics_collected_at
    , "\"comment_count\": " ++ joptInt c.comment_count
    , "\"detected_at\": " ++ toString c.detected_at
    , "\"like_count\": " ++ joptInt c.like_count
    , "\"repost_count\": " ++ joptInt c.repost_count
    , "\"save_count\": " ++ joptInt c.save_count
    , "\"title\": " ++ jstr c.title
    , "\"username\": " ++ jstr c.username
    , "\"video_id\": " ++ jstr c.video_id
    , "\"video_url\": " ++ jstr c.video_url
    , "\"view_count\": " ++ joptInt c.view_count ] ++ "\x7d"

/-- serialize_state of src/state_manager.py: json.dumps(state, sort_keys=True)
over the typed document.  Objects with fixed keys are emitted with those keys
in sorted order; the dynamically-keyed accounts object is sorted by username. -/
def serialize_state (st : StateDoc) : String :=
  "\x7b\"accounts\": " ++ serializeAccountsObj st.accounts
    ++ ", \"completed_analytics\": ["
    ++ String.intercalate ", " (st.completed_analytics.map serializeCompleted)
    ++ "], \"pending_analytics\": ["
    ++ String.intercalate ", " (st.pending_analytics.map serializeJob)
    ++ "], \"version\": " ++ toString st.version ++ "\x7d"

/-- has_meaningful_change of src/state_manager.py: snapshot inequality. -/
def has_meaningful_change (old_snapshot new_snapshot : String) : Bool :=
  old_snapshot != new_snapshot

/-- The commit-gate decision of monitor.py / analytics.py main: save and
git-commit/push happen exactly when this is true. -/
def commit_gate (before after : StateDoc) : Bool :=
  has_meaningful_change (serialize_state before) (serialize_state after)

/-! ### Derived views used by the claims -/

/-- The known_video_ids list of one account (empty when the account record is
absent). -/
def knownFor (st : StateDoc) (u : String) : List String :=
  ((lookupA st.accounts u).getD ⟨[]⟩).known_video_ids

/-- Characterization of what one collection cycle does to a single pending
job, following the spec wording of section 4.4: carried unchanged when not yet
due; dropped on success or retry exhaustion; re-queued with the incremented
retry count otherwise.  Used to state the order of the resulting pending
list. -/
def carryJob (fetch : String → FetchOutcome) (now : Int) (maxRetries : Nat)
    (job : PendingJob) : Option PendingJob :=
  if now < job.analytics_due_at then some job
  else
    match fetch job.video_url with
    | .ok _ => none
    | .clientError =>
        if maxRetries ≤ job.retry_count + 1 then none
        else some { job with retry_count := job.retry_count + 1 }

/-- An account is settled in a state for a given extraction outcome when
re-running the monitor.py per-account step with that same outcome cannot
change the durable document: the account record exists, and on a successful
listing every listed id is already known, the known list being empty only for
an empty listing. -/
def AccountSettled (st : StateDoc) (u : String) : ListOutcome → Prop
  | .ok videos =>
      ∃ acc, lookupA st.accounts u = some acc
        ∧ (∀ v ∈ videos, v.video_id ∈ acc.known_video_ids)
        ∧ (acc.known_video_ids = [] → videos = [])
  | .accountNotFound => (lookupA st.accounts u).isSome = true
  | .clientError => (lookupA st.accounts u).isSome = true
  | .unexpected => (lookupA st.accounts u).isSome = true

theorem lookupA_setA_self {α : Type} (l : List (String × α)) (k : String) (v : α) :
    lookupA (setA l k v) k = some v := by
  induction l with
  | nil => simp [setA, lookupA]
  | cons hd tl ih =>
      obtain ⟨k', w⟩ := hd
      by_cases h : k' = k
      · simp [setA, lookupA, h]
      · simp [setA, lookupA, h, ih]

theorem lookupA_setA_ne {α : Type} (l : List (String × α)) (k k' : String) (v : α)
    (h : k' ≠ k) : lookupA (setA l k v) k' = lookupA l k' := by
  induction l with
  | nil =>
      have h1 : ¬ k = k' := fun hh => h hh.symm
      simp [setA, lookupA, h1]
  | cons hd tl ih =>
      obtain ⟨k0, w⟩ := hd
      by_cases h0 : k0 = k
      · subst h0
        have h1 : ¬ k0 = k' := fun hh => h hh.symm
        simp [setA, lookupA, h1]
      · simp [setA, lookupA, h0, ih]

theorem setA_self {α : Type} {l : List (String × α)} {k : String} {v : α}
    (h : lookupA l k = some v) : setA l k v = l := by
  induction l with
  | nil => simp [lookupA] at h
  | cons hd tl ih =>
      obtain ⟨k0, w⟩ := hd
      by_cases h0 : k0 = k
      · subst h0
        simp [lookupA] at h
        simp [setA, h]
      · simp [lookupA, h0] at h
        simp [setA, h0, ih h]

/-! ### Small facts about the ensure-account and ephemeral-record steps -/

/-- The known-ids view is untouched by the ensure-account-record step of
monitor.py (a missing account is created with an empty list, which is exactly
what the view reads off a missing account). -/
theorem knownFor_ensure (st : StateDoc) (u u' : String) :
    knownFor { st with accounts :=
        (if (lookupA st.accounts u).isSome then st.accounts
         else setA st.accounts u ⟨[]⟩) } u'
      = knownFor st u' := by
  by_cases h : (lookupA st.accounts u).isSome
  · simp [knownFor, h]
  · by_cases hu : u' = u
    · subst hu
      rw [Option.not_isSome_iff_eq_none] at h
      simp [knownFor, h, lookupA_setA_self]
    · simp [knownFor, h, lookupA_setA_ne _ _ _ _ hu]

/-- The record returned by get_account_ephemeral is the stored record, or the
default when the account had none. -/
theorem get_account_ephemeral_snd (eph : EphemeralDoc) (u : String) :
    (get_account_ephemeral eph u).2
      = (lookupA eph.accounts u).getD accountEphemeralDefault := by
  by_cases h : (lookupA eph.accounts u).isSome
  · simp [get_account_ephemeral, h]
  · rw [Option.not_isSome_iff_eq_none] at h
    simp [get_account_ephemeral, h, lookupA_setA_self]

/-! ### Claim C9 — save_state: pruning and the (non-)atomicity of the write -/

/-- Claim C9 counterexample: the filesystem plan of save_state writes the
final path directly and performs no temp-and-rename step, so the claimed
atomic write (temp location plus rename, or equivalent) is absent from the
code (state_manager.py line 76 calls p.write_text on the target). -/
theorem c9_save_counterexample :
    writes_target_directly (save_state default_state "data/state.json" 200).2
        "data/state.json" = true
    ∧ uses_rename (save_state default_state "data/state.json" 200).2 = false := by
  constructor <;> rfl

/-- Claim C9 (amended): for every positive max_completed, save_state stores
the document with completed_analytics pruned to its most recent max_completed
entries (oldest discarded first, surviving order preserved — a drop of
length - max_completed from the front), and the plan is a parent-mkdir
followed by one direct write of that pruned document to the target path, with
no rename.  Positivity matters: at max_completed = 0 the program's [-0:]
slice keeps the whole list, so the bound is only enforced for positive
limits. -/
theorem c9_save_prunes_direct_write (st : StateDoc) (path : String)
    (max_completed : Nat) (hm : 0 < max_completed) :
    save_state st path max_completed =
      ({ st with completed_analytics := st.completed_analytics.drop (st.completed_analytics.length - max_completed) },
       [.mkdirParents path,
        .writeState path
          { st with completed_analytics := st.completed_analytics.drop (st.completed_analytics.length - max_completed) }])
    ∧ uses_rename (save_state st path max_completed).2 = false := by
  obtain ⟨ver, accs, pend, comp⟩ := st
  have hm0 : max_completed ≠ 0 := Nat.pos_iff_ne_zero.mp hm
  refine ⟨?_, ?_⟩
  · by_cases h : max_completed < comp.length
    · simp [save_state, sliceLast, h, hm0]
    · have h0 : comp.length - max_completed = 0 :=
        Nat.sub_eq_zero_of_le (Nat.le_of_not_lt h)
      simp [save_state, h, h0]
  · by_cases h : max_completed < comp.length <;> simp [save_state, h, uses_rename]

/-- Witness for claim C9: two completed records pruned to the most recent one
by a save with max_completed = 1. -/
theorem c9_witness :
    save_state ⟨1, [], [],
        [⟨"v1", "@a", "u1", "t1", 0, 5, none, none, none, none, none⟩,
         ⟨"v2", "@a", "u2", "t2", 1, 6, none, none, none, none, none⟩]⟩
      "data/state.json" 1
      = (⟨1, [], [], [⟨"v2", "@a", "u2", "t2", 1, 6, none, none, none, none, none⟩]⟩,
         [.mkdirParents "data/state.json",
          .writeState "data/state.json"
            ⟨1, [], [], [⟨"v2", "@a", "u2", "t2", 1, 6, none, none, none, none, none⟩]⟩])
    ∧ uses_rename (save_state ⟨1, [], [],
        [⟨"v1", "@a", "u1", "t1", 0, 5, none, none, none, none, none⟩,
         ⟨"v2", "@a", "u2", "t2", 1, 6, none, none, none, none, none⟩]⟩
      "data/state.json" 1).2 = false := by
  have h := c9_save_prunes_direct_write
    ⟨1, [], [],
      [⟨"v1", "@a", "u1", "t1", 0, 5, none, none, none, none, none⟩,
       ⟨"v2", "@a", "u2", "t2", 1, 6, none, none, none, none, none⟩]⟩
    "data/state.json" 1 (by decide)
  exact ⟨h.1.trans (by rfl), h.2⟩

/-! ### Claim C6 — load_state tolerance -/

/-- Claim C10: when the extraction client succeeds but every optional count
field is absent (all VideoAnalytics count fields None), the success path of
the collection cycle appends a Completed Record whose metric fields are all
null — the notification emitted is the analytics report of the success path,
not the retry-exhaustion alert — so an all-null Completed Record does not
uniquely indicate retry exhaustion. -/
theorem c10_success_all_null :
    (collectionCycle ⟨1, [], [⟨"v1", "@a", "https://x", 0, 10, "title", 0⟩], []⟩
        (fun _ => FetchOutcome.ok
          ⟨"v1", "https://x", "title", none, none, none, none, none, none⟩)
        20 3 200)
      = (⟨1, [], [],
          [⟨"v1", "@a", "https://x", "title", 0, 20, none, none, none, none, none⟩]⟩,
         [.analyticsReport "@a" "https://x" "title" 0 none none none none none]) := by
  rfl

/-! ### Collection-cycle structure lemmas (claims C4, C8, C1) -/

/-- The still_pending component built by the per-job loop of analytics.py: the
initial accumulator followed by the carried and re-queued jobs of the
processed list, in their original relative order. -/
theorem collect_foldl_pending (fetch : String → FetchOutcome) (now : Int)
    (maxRetries : Nat) (jobs : List PendingJob) :
    ∀ (sp : List PendingJob) (comp : List CompletedRecord)
      (nt : List Notification),
    (jobs.foldl (collectStep fetch now maxRetries) (sp, comp, nt)).1
      = sp ++ jobs.filterMap (carryJob fetch now maxRetries) := by
  induction jobs with
  | nil => intro sp comp nt; simp
  | cons j rest ih =>
      intro sp comp nt
      rw [List.foldl_cons]
      by_cases hdue : now < j.analytics_due_at
      · simp only [collectStep, if_pos hdue]
        rw [ih]
        simp [carryJob, hdue]
      · cases hfetch : fetch j.video_url with
        | ok a =>
            simp only [collectStep, if_neg hdue, hfetch]
            rw [ih]
            simp [carryJob, hdue, hfetch]
        | clientError =>
            by_cases hrc : maxRetries ≤ j.retry_count + 1
            · simp only [collectStep, if_neg hdue, hfetch, if_pos hrc]
              rw [ih]
              simp [carryJob, hdue, hfetch, hrc]
            · simp only [collectStep, if_neg hdue, hfetch, if_neg hrc]
              rw [ih]
              simp [carryJob, hdue, hfetch, hrc]

/-- The pending list produced by one collection cycle, as a single stable pass
over the original pending list. -/
theorem pending_after_collectionCycle (st : StateDoc)
    (fetch : String → FetchOutcome) (now : Int) (maxRetries maxCompleted : Nat) :
    (collectionCycle st fetch now maxRetries maxCompleted).1.pending_analytics
      = st.pending_analytics.filterMap (carryJob fetch now maxRetries) := by
  simp [collectionCycle, collect_foldl_pending]

/-! ### Claim C4 — order of the new pending list -/

/-- Claim C4 counterexample: with a due-and-failing first job (retries not
exhausted) and a not-yet-due second job, the code leaves the re-queued job
BEFORE the not-yet-due job, whereas the claimed order (not-yet-due jobs
followed by retried jobs) would put it after. -/
theorem c4_order_counterexample :
    (collectionCycle
        ⟨1, [], [⟨"a", "@u", "urlA", 0, 0, "tA", 0⟩,
                 ⟨"b", "@u", "urlB", 0, 10, "tB", 0⟩], []⟩
        (fun _ => .clientError) 5 3 200).1.pending_analytics
      = [⟨"a", "@u", "urlA", 0, 0, "tA", 1⟩, ⟨"b", "@u", "urlB", 0, 10, "tB", 0⟩]
    ∧ ([⟨"a", "@u", "urlA", 0, 0, "tA", 1⟩,
        ⟨"b", "@u", "urlB", 0, 10, "tB", 0⟩] : List PendingJob)
      ≠ [⟨"b", "@u", "urlB", 0, 10, "tB", 0⟩, ⟨"a", "@u", "urlA", 0, 0, "tA", 1⟩] := by
  exact ⟨by decide, by decide⟩

/-- Claim C4 (amended): after every collection cycle the new pending_analytics
list consists of the carried-forward (not-yet-due, unchanged) and re-queued
(due, failed, retries-not-exhausted, retry_count incremented) jobs interleaved
in their original relative order — one deterministic in-order pass, not the
not-yet-due group followed by the retried group. -/
theorem c4_pending_single_pass (st : StateDoc) (fetch : String → FetchOutcome)
    (now : Int) (maxRetries maxCompleted : Nat) :
    (collectionCycle st fetch now maxRetries maxCompleted).1.pending_analytics
      = st.pending_analytics.filterMap (carryJob fetch now maxRetries) :=
  pending_after_collectionCycle st fetch now maxRetries maxCompleted

/-! ### Claim C8 — due-time gating frame property -/

/-- Claim C8: a pending job whose due time lies strictly in the future at
every cycle is carried through any number of collection cycles as the very
same value — every field, due_at and retry_count included, preserved and
due_at never recomputed. -/
theorem c8_due_time_gating (st : StateDoc)
    (cycles : List ((String → FetchOutcome) × Int)) (maxRetries maxCompleted : Nat)
    (job : PendingJob) (hmem : job ∈ st.pending_analytics)
    (hfut : ∀ c ∈ cycles, c.2 < job.analytics_due_at) :
    job ∈ (runCollectionCycles st cycles maxRetries maxCompleted).pending_analytics := by
  induction cycles generalizing st with
  | nil => simpa [runCollectionCycles] using hmem
  | cons c rest ih =>
      have h1 : job ∈ (collectionCycle st c.1 c.2 maxRetries maxCompleted).1.pending_analytics := by
        rw [pending_after_collectionCycle]
        exact List.mem_filterMap.mpr
          ⟨job, hmem, by simp [carryJob, hfut c (List.mem_cons_self c rest)]⟩
      have h2 : ∀ c' ∈ rest, c'.2 < job.analytics_due_at :=
        fun c' hc' => hfut c' (List.mem_cons_of_mem c hc')
      simpa [runCollectionCycles, List.foldl_cons] using
        ih (collectionCycle st c.1 c.2 maxRetries maxCompleted).1 h1 h2

/-- Witness for claim C8 at a concrete state, job and cycle list. -/
theorem c8_witness :
    (⟨"v", "@a", "u", 0, 10, "t", 0⟩ : PendingJob)
      ∈ (runCollectionCycles ⟨1, [], [⟨"v", "@a", "u", 0, 10, "t", 0⟩], []⟩
          [(fun _ => .clientError, 5)] 3 200).pending_analytics :=
  c8_due_time_gating _ _ _ _ _ (by simp)
    (by
      intro c hc
      rw [List.mem_singleton] at hc
      subst hc
      decide)

/-! ### Claim C1 — retry exhaustion -/

/-- One due-and-failed attempt that does not exhaust the retry budget: the job
is re-queued with its retry count incremented and nothing else changes. -/
theorem collectionCycle_single_requeue (v : Nat) (accts : List (String × Account))
    (cs : List CompletedRecord) (j : PendingJob) (t : Int) (M : Nat)
    (hdue : j.analytics_due_at ≤ t) (hM : cs.length < M)
    (hrc : j.retry_count + 1 < 3) :
    (collectionCycle ⟨v, accts, [j], cs⟩ (fun _ => .clientError) t 3 M).1
      = ⟨v, accts, [{ j with retry_count := j.retry_count + 1 }], cs⟩ := by
  have h1 : ¬ t < j.analytics_due_at := not_lt.mpr hdue
  have h2 : ¬ 3 ≤ j.retry_count + 1 := not_le.mpr hrc
  have h3 : ¬ M < cs.length := not_lt.mpr (le_of_lt hM)
  simp [collectionCycle, collectStep, h1, h2, h3]

/-- One due-and-failed attempt that exhausts the retry budget: the job leaves
pending and exactly one all-null completed record with collected_at = t is
appended. -/
theorem collectionCycle_single_exhaust (v : Nat) (accts : List (String × Account))
    (cs : List CompletedRecord) (j : PendingJob) (t : Int) (M : Nat)
    (hdue : j.analytics_due_at ≤ t) (hM : cs.length + 1 ≤ M)
    (hrc : 3 ≤ j.retry_count + 1) :
    (collectionCycle ⟨v, accts, [j], cs⟩ (fun _ => .clientError) t 3 M).1
      = ⟨v, accts, [],
         cs ++ [⟨j.video_id, j.username, j.video_url, j.title, j.detected_at, t,
                 none, none, none, none, none⟩]⟩ := by
  have h1 : ¬ t < j.analytics_due_at := not_lt.mpr hdue
  have h3 : ¬ M < cs.length + 1 := not_lt.mpr hM
  simp [collectionCycle, collectStep, h1, hrc, h3]

/-- Claim C1: with max_retries = 3 and a job whose collection always fails,
three due-and-failed attempts are needed and sufficient — after attempts one
and two the job is still pending (retry counts 1 and 2) and no record exists
yet; after the third attempt pending is empty and exactly one Completed Record
was appended, all metric fields null, collected_at the time of the final
attempt. -/
theorem c1_retry_exhaustion (v : Nat) (accts : List (String × Account))
    (cs : List CompletedRecord) (job : PendingJob) (t1 t2 t3 : Int) (M : Nat)
    (hrc : job.retry_count = 0)
    (h1 : job.analytics_due_at ≤ t1) (h2 : job.analytics_due_at ≤ t2)
    (h3 : job.analytics_due_at ≤ t3) (hM : cs.length + 1 ≤ M) :
    (collectionCycle ⟨v, accts, [job], cs⟩ (fun _ => .clientError) t1 3 M).1
      = ⟨v, accts, [{ job with retry_count := 1 }], cs⟩
    ∧ (collectionCycle ⟨v, accts, [{ job with retry_count := 1 }], cs⟩
        (fun _ => .clientError) t2 3 M).1
      = ⟨v, accts, [{ job with retry_count := 2 }], cs⟩
    ∧ (collectionCycle ⟨v, accts, [{ job with retry_count := 2 }], cs⟩
        (fun _ => .clientError) t3 3 M).1
      = ⟨v, accts, [],
         cs ++ [⟨job.video_id, job.username, job.video_url, job.title,
                 job.detected_at, t3, none, none, none, none, none⟩]⟩ := by
  have hMlt : cs.length < M := Nat.lt_of_succ_le hM
  refine ⟨?_, ?_, ?_⟩
  · have h := collectionCycle_single_requeue v accts cs job t1 M h1 hMlt
      (by rw [hrc]; decide)
    simpa [hrc] using h
  · have h := collectionCycle_single_requeue v accts cs
      { job with retry_count := 1 } t2 M h2 hMlt (by simp)
    simpa using h
  · have h := collectionCycle_single_exhaust v accts cs
      { job with retry_count := 2 } t3 M h3 hM (by simp)
    simpa using h

/-- Witness for claim C1 at a concrete job and cycle times. -/
theorem c1_witness :
    (collectionCycle
        (collectionCycle
          (collectionCycle ⟨1, [], [⟨"v", "@a", "u", 0, 10, "t", 0⟩], []⟩
            (fun _ => .clientError) 11 3 200).1
          (fun _ => .clientError) 12 3 200).1
        (fun _ => .clientError) 13 3 200).1
      = ⟨1, [], [], [⟨"v", "@a", "u", "t", 0, 13, none, none, none, none, none⟩]⟩ := by
  obtain ⟨e1, e2, e3⟩ := c1_retry_exhaustion 1 [] [] ⟨"v", "@a", "u", 0, 10, "t", 0⟩ 11 12 13 200
    rfl (by decide) (by decide) (by decide) (by decide)
  rw [e1, e2, e3]
  rfl

/-! ### Claim C5 — first-run bootstrap -/

/-- Claim C5: for an account with no known items before the extraction call
(record absent or empty), one detection-cycle step with a successful listing
of N items records exactly those N item ids in listing order, creates zero
pending jobs, leaves completed history untouched, and attempts zero
notifications. -/
theorem c5_first_run_bootstrap (st : StateDoc) (eph : EphemeralDoc)
    (u : String) (videos : List VideoSummary) (now delay : Int)
    (h : lookupA st.accounts u = none ∨ lookupA st.accounts u = some ⟨[]⟩) :
    knownFor (processAccount st eph u (.ok videos) now delay).1 u
      = videos.map (·.video_id)
    ∧ (knownFor (processAccount st eph u (.ok videos) now delay).1 u).length
      = videos.length
    ∧ (processAccount st eph u (.ok videos) now delay).1.pending_analytics
      = st.pending_analytics
    ∧ (processAccount st eph u (.ok videos) now delay).1.completed_analytics
      = st.completed_analytics
    ∧ (processAccount st eph u (.ok videos) now delay).2.2 = [] := by
  rcases h with h | h
  · have hs : (lookupA st.accounts u).isSome = false := by simp [h]
    simp [processAccount, hs, knownFor, lookupA_setA_self]
  · have hs : (lookupA st.accounts u).isSome = true := by simp [h]
    simp [processAccount, hs, h, knownFor, lookupA_setA_self]

/-- Witness for claim C5 at a concrete fresh account and two listed videos. -/
theorem c5_witness :
    (lookupA default_state.accounts "@a" = none
      ∨ lookupA default_state.accounts "@a" = some ⟨[]⟩)
    ∧ knownFor (processAccount default_state default_ephemeral "@a"
        (.ok [⟨"v1", "u1", "t1", none⟩, ⟨"v2", "u2", "t2", none⟩]) 0 24).1 "@a"
      = ["v1", "v2"] :=
  ⟨Or.inl rfl,
   (c5_first_run_bootstrap default_state default_ephemeral "@a"
      [⟨"v1", "u1", "t1", none⟩, ⟨"v2", "u2", "t2", none⟩] 0 24 (Or.inl rfl)).1⟩

/-! ### Claim C7 — failure bookkeeping and the alert threshold -/

/-- Claim C7 counterexample: a streak of six consecutive account-not-found
failures attempts the account alert twice (on the fifth AND the sixth
failure), not exactly once per streak; and a streak of five consecutive
generic classified failures (TikTokClientError branch) attempts no alert at
all, so the counter-and-threshold alert logic is not uniform across failure
classes. -/
theorem c7_alert_counterexample :
    (([1, 2, 3, 4, 5, 6] : List Int).foldl
        (fun p t =>
          let r := processAccount p.1 p.2.1 "@a" .accountNotFound t 24
          (r.1, r.2.1, p.2.2 ++ r.2.2))
        (default_state, default_ephemeral, ([] : List Notification))).2.2
      = [.errorNotice (.accountUnavailable "@a"),
         .errorNotice (.accountUnavailable "@a")]
    ∧ (([1, 2, 3, 4, 5] : List Int).foldl
        (fun p t =>
          let r := processAccount p.1 p.2.1 "@a" .clientError t 24
          (r.1, r.2.1, p.2.2 ++ r.2.2))
        (default_state, default_ephemeral, ([] : List Notification))).2.2
      = [] := by
  exact ⟨by decide, by decide⟩

/-- Claim C7 (amended): every classified extraction failure leaves every
known_video_ids list and the job queues unchanged and sets the ephemeral
record to last_checked = now, last_check_success = false with the
consecutive-failure counter incremented; the account alert is attempted on an
account-not-found failure exactly when the incremented counter is at least 5
(hence on every such failure from the fifth of a streak onward, not once per
streak), while the other classified failure branch never attempts it. -/
theorem c7_failure_bookkeeping (st : StateDoc) (eph : EphemeralDoc)
    (u : String) (now delay : Int) :
    (∀ u', knownFor (processAccount st eph u .accountNotFound now delay).1 u'
      = knownFor st u')
    ∧ (processAccount st eph u .accountNotFound now delay).1.pending_analytics
      = st.pending_analytics
    ∧ (processAccount st eph u .accountNotFound now delay).1.completed_analytics
      = st.completed_analytics
    ∧ lookupA (processAccount st eph u .accountNotFound now delay).2.1.accounts u
      = some ⟨some now, false,
          ((lookupA eph.accounts u).getD accountEphemeralDefault).consecutive_failures + 1⟩
    ∧ (processAccount st eph u .accountNotFound now delay).2.2
      = (if 5 ≤ ((lookupA eph.accounts u).getD accountEphemeralDefault).consecutive_failures + 1
         then [.errorNotice (.accountUnavailable u)] else [])
    ∧ (∀ u', knownFor (processAccount st eph u .clientError now delay).1 u'
      = knownFor st u')
    ∧ (processAccount st eph u .clientError now delay).1.pending_analytics
      = st.pending_analytics
    ∧ lookupA (processAccount st eph u .clientError now delay).2.1.accounts u
      = some ⟨some now, false,
          ((lookupA eph.accounts u).getD accountEphemeralDefault).consecutive_failures + 1⟩
    ∧ (processAccount st eph u .clientError now delay).2.2 = []
    ∧ lookupA (processAccount st eph u .unexpected now delay).2.1.accounts u
      = some ⟨some now, false,
          ((lookupA eph.accounts u).getD accountEphemeralDefault).consecutive_failures + 1⟩
    ∧ (processAccount st eph u .unexpected now delay).2.2 = [] := by
  have hsnd := get_account_ephemeral_snd eph u
  refine ⟨fun u' => ?_, ?_, ?_, ?_, ?_, fun u' => ?_, ?_, ?_, ?_, ?_, ?_⟩ <;>
    simp [processAccount, hsnd, lookupA_setA_self, knownFor_ensure]

/-! ### Claim C3 — settledness machinery for the idempotent second run -/

/-- Shape of a successful per-account step: the account ends with a known-id
list that contains every listed id and every previously known id, and is empty
only when the listing was empty. -/
theorem processAccount_ok_known (st : StateDoc) (eph : EphemeralDoc)
    (u : String) (videos : List VideoSummary) (now delay : Int) :
    ∃ kn, lookupA (processAccount st eph u (.ok videos) now delay).1.accounts u
        = some ⟨kn⟩
      ∧ (∀ v ∈ videos, v.video_id ∈ kn)
      ∧ (∀ x ∈ ((lookupA st.accounts u).getD ⟨[]⟩).known_video_ids, x ∈ kn)
      ∧ (kn = [] → videos = []) := by
  rcases hlk : lookupA st.accounts u with _ | acc
  · have hs : (lookupA st.accounts u).isSome = false := by simp [hlk]
    refine ⟨videos.map (·.video_id), ?_, fun v hv => List.mem_map_of_mem _ hv,
      ?_, fun h => List.map_eq_nil_iff.mp h⟩
    · simp [processAccount, hs, lookupA_setA_self]
    · simp [hlk]
  · have hs : (lookupA st.accounts u).isSome = true := by simp [hlk]
    by_cases hemp : acc.known_video_ids.isEmpty
    · have hknil : acc.known_video_ids = [] := by simpa using hemp
      refine ⟨videos.map (·.video_id), ?_, fun v hv => List.mem_map_of_mem _ hv,
        ?_, fun h => List.map_eq_nil_iff.mp h⟩
      · simp [processAccount, hs, hlk, hemp, lookupA_setA_self]
      · simp [hlk, hknil]
    · refine ⟨acc.known_video_ids
          ++ (videos.filter (fun v => !(acc.known_video_ids.contains v.video_id))).map (·.video_id),
        ?_, ?_, ?_, ?_⟩
      · simp [processAccount, hs, hlk, hemp, lookupA_setA_self]
      · intro v hv
        by_cases hc : acc.known_video_ids.contains v.video_id
        · exact List.mem_append_left _ (by simpa using hc)
        · exact List.mem_append_right _
            (List.mem_map_of_mem _ (List.mem_filter.mpr ⟨hv, by simpa using hc⟩))
      · intro x hx
        simp [hlk] at hx
        exact List.mem_append_left _ hx
      · intro h
        exact absurd (List.append_eq_nil.mp h).1 (by simpa using hemp)

/-- Every per-account step leaves its own account settled for the outcome it
observed. -/
theorem processAccount_settles (st : StateDoc) (eph : EphemeralDoc)
    (u : String) (o : ListOutcome) (now delay : Int) :
    AccountSettled (processAccount st eph u o now delay).1 u o := by
  cases o with
  | ok videos =>
      obtain ⟨kn, hl, hsub, _, hnil⟩ := processAccount_ok_known st eph u videos now delay
      exact ⟨⟨kn⟩, hl, hsub, hnil⟩
  | accountNotFound =>
      by_cases hs : (lookupA st.accounts u).isSome
      · simp [processAccount, AccountSettled, hs]
      · simp [processAccount, AccountSettled, hs, lookupA_setA_self]
  | clientError =>
      by_cases hs : (lookupA st.accounts u).isSome
      · simp [processAccount, AccountSettled, hs]
      · simp [processAccount, AccountSettled, hs, lookupA_setA_self]
  | unexpected =>
      by_cases hs : (lookupA st.accounts u).isSome
      · simp [processAccount, AccountSettled, hs]
      · simp [processAccount, AccountSettled, hs, lookupA_setA_self]

/-- Settledness only reads the account record, so equal lookups transfer it. -/
theorem settled_congr {st1 st2 : StateDoc} {u : String} (o : ListOutcome)
    (hl : lookupA st1.accounts u = lookupA st2.accounts u) :
    AccountSettled st1 u o ↔ AccountSettled st2 u o := by
  cases o <;> simp [AccountSettled, hl]

/-- Processing a different account never changes this account record. -/
theorem lookupA_processAccount_ne (st : StateDoc) (eph : EphemeralDoc)
    (u' : String) (o' : ListOutcome) (now delay : Int) (u : String)
    (hu : u ≠ u') :
    lookupA (processAccount st eph u' o' now delay).1.accounts u
      = lookupA st.accounts u := by
  have h1 : ∀ (l : List (String × Account)) v, lookupA (setA l u' v) u = lookupA l u :=
    fun l v => lookupA_setA_ne l u' u v hu
  cases o' with
  | ok videos =>
      rcases hlk : lookupA st.accounts u' with _ | acc
      · have hs : (lookupA st.accounts u').isSome = false := by simp [hlk]
        simp [processAccount, hs, hlk, lookupA_setA_self, h1]
      · have hs : (lookupA st.accounts u').isSome = true := by simp [hlk]
        by_cases hemp : acc.known_video_ids.isEmpty
        · simp [processAccount, hs, hlk, hemp, h1]
        · simp [processAccount, hs, hlk, hemp, h1]
  | accountNotFound =>
      by_cases hs : (lookupA st.accounts u').isSome <;> simp [processAccount, hs, h1]
  | clientError =>
      by_cases hs : (lookupA st.accounts u').isSome <;> simp [processAccount, hs, h1]
  | unexpected =>
      by_cases hs : (lookupA st.accounts u').isSome <;> simp [processAccount, hs, h1]

/-- Settledness of any account for its own outcome survives any further
per-account step. -/
theorem processAccount_preserves_settled {st : StateDoc} {u : String}
    {o : ListOutcome} (h : AccountSettled st u o) (eph : EphemeralDoc)
    (u' : String) (o' : ListOutcome) (now delay : Int) :
    AccountSettled (processAccount st eph u' o' now delay).1 u o := by
  by_cases hu : u = u'
  · subst hu
    have hsome : (lookupA st.accounts u).isSome = true := by
      cases o with
      | ok videos => obtain ⟨acc, hlk, _, _⟩ := h; simp [hlk]
      | accountNotFound => exact h
      | clientError => exact h
      | unexpected => exact h
    cases o' with
    | ok videos' =>
        obtain ⟨kn, hl', hsub', hsup, hnil'⟩ :=
          processAccount_ok_known st eph u videos' now delay
        cases o with
        | ok videos =>
            obtain ⟨acc, hlk, hsub, hnil⟩ := h
            refine ⟨⟨kn⟩, hl', fun v hv => ?_, fun hk => ?_⟩
            · apply hsup
              simp [hlk]
              exact hsub v hv
            · apply hnil
              by_contra hne
              obtain ⟨x, hx⟩ := List.exists_mem_of_ne_nil _ hne
              have hxkn := hsup x (by simp [hlk]; exact hx)
              have hk2 : kn = [] := hk
              rw [hk2] at hxkn
              exact absurd hxkn (List.not_mem_nil x)
        | accountNotFound => simp [AccountSettled, hl']
        | clientError => simp [AccountSettled, hl']
        | unexpected => simp [AccountSettled, hl']
    | accountNotFound =>
        have hred : (processAccount st eph u .accountNotFound now delay).1 = st := by
          simp [processAccount, hsome]
        rw [hred]; exact h
    | clientError =>
        have hred : (processAccount st eph u .clientError now delay).1 = st := by
          simp [processAccount, hsome]
        rw [hred]; exact h
    | unexpected =>
        have hred : (processAccount st eph u .unexpected now delay).1 = st := by
          simp [processAccount, hsome]
        rw [hred]; exact h
  · exact (settled_congr o (lookupA_processAccount_ne st eph u' o' now delay u hu)).mpr h

/-- A settled account cannot be changed by re-processing it with the very same
outcome. -/
theorem processAccount_identity {st : StateDoc} {u : String} {o : ListOutcome}
    (h : AccountSettled st u o) (eph : EphemeralDoc) (now delay : Int) :
    (processAccount st eph u o now delay).1 = st := by
  cases o with
  | ok videos =>
      obtain ⟨acc, hlk, hsub, hnil⟩ := h
      obtain ⟨kn⟩ := acc
      have hs : (lookupA st.accounts u).isSome = true := by simp [hlk]
      by_cases hemp : kn.isEmpty
      · have hknil : kn = [] := by simpa using hemp
        subst hknil
        have hvids : videos = [] := hnil rfl
        subst hvids
        have hset : setA st.accounts u ⟨[]⟩ = st.accounts := setA_self hlk
        simp [processAccount, hs, hlk, hset]
      · have hempf : kn.isEmpty = false := by simpa using hemp
        have hfilter : videos.filter (fun v => !decide (v.video_id ∈ kn)) = [] :=
          List.filter_eq_nil_iff.mpr (fun v hv => by simp [hsub v hv])
        have hset : setA st.accounts u ⟨kn⟩ = st.accounts := setA_self hlk
        simp [processAccount, hs, hlk, hempf, hfilter, hset]
  | accountNotFound =>
      have h' : (lookupA st.accounts u).isSome = true := h
      simp [processAccount, h']
  | clientError =>
      have h' : (lookupA st.accounts u).isSome = true := h
      simp [processAccount, h']
  | unexpected =>
      have h' : (lookupA st.accounts u).isSome = true := h
      simp [processAccount, h']

/-- Settledness survives the rest of the account loop. -/
theorem foldl_detectStep_preserves (client : String → ListOutcome)
    (now delay : Int) (us : List String) :
    ∀ (acc : StateDoc × EphemeralDoc × List Notification) (u : String),
      AccountSettled acc.1 u (client u) →
      AccountSettled (us.foldl (detectStep client now delay) acc).1 u (client u) := by
  induction us with
  | nil => intro acc u h; exact h
  | cons u0 rest ih =>
      intro acc u h
      rw [List.foldl_cons]
      exact ih _ u (processAccount_preserves_settled h acc.2.1 u0 (client u0) now delay)

/-- After the account loop every processed account is settled for the outcome
the client reported for it. -/
theorem foldl_detectStep_settles (client : String → ListOutcome)
    (now delay : Int) (us : List String) :
    ∀ (acc : StateDoc × EphemeralDoc × List Notification), ∀ u ∈ us,
      AccountSettled (us.foldl (detectStep client now delay) acc).1 u (client u) := by
  induction us with
  | nil => intro acc u h; exact absurd h (List.not_mem_nil u)
  | cons u0 rest ih =>
      intro acc u hu
      rw [List.foldl_cons]
      rcases List.mem_cons.mp hu with h | h
      · subst h
        exact foldl_detectStep_preserves client now delay rest _ u
          (processAccount_settles acc.1 acc.2.1 u (client u) now delay)
      · exact ih _ u h

/-- The account loop is the identity on the durable document when every
processed account is already settled for its outcome. -/
theorem foldl_detectStep_identity (client : String → ListOutcome)
    (now delay : Int) (us : List String) :
    ∀ (acc : StateDoc × EphemeralDoc × List Notification),
      (∀ u ∈ us, AccountSettled acc.1 u (client u)) →
      (us.foldl (detectStep client now delay) acc).1 = acc.1 := by
  induction us with
  | nil => intro acc _; rfl
  | cons u0 rest ih =>
      intro acc h
      rw [List.foldl_cons]
      have hid : (detectStep client now delay acc u0).1 = acc.1 :=
        processAccount_identity (h u0 (List.mem_cons_self u0 rest)) acc.2.1 now delay
      have hrest : ∀ u ∈ rest,
          AccountSettled (detectStep client now delay acc u0).1 u (client u) := by
        intro u hu
        rw [hid]
        exact h u (List.mem_cons_of_mem _ hu)
      rw [ih _ hrest, hid]

/-- Sorting the account items by username is invariant under permutation when
usernames are distinct (the dict-items case). -/
theorem sortAccounts_perm_eq (l1 l2 : List (String × Account))
    (hp : l1.Perm l2) (hn : (l1.map Prod.fst).Nodup) :
    sortAccounts l1 = sortAccounts l2 := by
  haveI htot : IsTotal (String × Account) accountKeyLe := ⟨fun a b => le_total a.1 b.1⟩
  haveI htr : IsTrans (String × Account) accountKeyLe :=
    ⟨fun a b c hab hbc => le_trans hab hbc⟩
  haveI : IsAntisymm (String × Account) (fun a b => a.1 < b.1) :=
    ⟨fun a b h1 h2 => absurd (lt_trans h1 h2) (lt_irrefl _)⟩
  have hs1 : List.Sorted accountKeyLe (sortAccounts l1) :=
    List.sorted_insertionSort accountKeyLe l1
  have hs2 : List.Sorted accountKeyLe (sortAccounts l2) :=
    List.sorted_insertionSort accountKeyLe l2
  have hperm : (sortAccounts l1).Perm (sortAccounts l2) :=
    (List.perm_insertionSort accountKeyLe l1).trans
      (hp.trans (List.perm_insertionSort accountKeyLe l2).symm)
  have hn1 : ((sortAccounts l1).map Prod.fst).Nodup :=
    ((List.perm_insertionSort accountKeyLe l1).map Prod.fst).nodup_iff.mpr hn
  have hn2 : ((sortAccounts l2).map Prod.fst).Nodup := by
    have hn' : (l2.map Prod.fst).Nodup := ((hp.map Prod.fst).nodup_iff).mp hn
    exact ((List.perm_insertionSort accountKeyLe l2).map Prod.fst).nodup_iff.mpr hn'
  have hstrict : ∀ (l : List (String × Account)), List.Sorted accountKeyLe l →
      ((l.map Prod.fst).Nodup) →
      List.Pairwise (fun a b : String × Account => a.1 < b.1) l := by
    intro l hsor hnd
    have hne : List.Pairwise (fun a b : String × Account => a.1 ≠ b.1) l :=
      List.pairwise_map.mp hnd
    exact (hsor.and hne).imp (fun hab => lt_of_le_of_ne hab.1 hab.2)
  exact List.eq_of_perm_of_sorted hperm (hstrict _ hs1 hn1) (hstrict _ hs2 hn2)

/-- Canonical serialization is key-order independent on the accounts mapping. -/
theorem serialize_state_key_order (st1 st2 : StateDoc)
    (hp : st1.accounts.Perm st2.accounts)
    (hn : (st1.accounts.map Prod.fst).Nodup) (hv : st1.version = st2.version)
    (hpend : st1.pending_analytics = st2.pending_analytics)
    (hcomp : st1.completed_analytics = st2.completed_analytics) :
    serialize_state st1 = serialize_state st2 := by
  simp [serialize_state, serializeAccountsObj,
    sortAccounts_perm_eq _ _ hp hn, hv, hpend, hcomp]

/-- Claim C3: with the extraction client reporting the same outcomes in both
runs, the second detection cycle leaves the durable document unchanged, the
before/after canonical snapshots coincide, the commit gate reports no
meaningful change (so no save and no commit/push), has_meaningful_change is
false on any equal pair of snapshots, and serialization is key-order
independent on the accounts mapping. -/
theorem c3_second_run_no_commit (st : StateDoc) (eph : EphemeralDoc)
    (usernames : List String) (client : String → ListOutcome)
    (now1 now2 delay : Int) :
    ((detectionCycle (detectionCycle st eph usernames client now1 delay).1
        (detectionCycle st eph usernames client now1 delay).2.1
        usernames client now2 delay).1
      = (detectionCycle st eph usernames client now1 delay).1)
    ∧ serialize_state
        (detectionCycle (detectionCycle st eph usernames client now1 delay).1
          (detectionCycle st eph usernames client now1 delay).2.1
          usernames client now2 delay).1
      = serialize_state (detectionCycle st eph usernames client now1 delay).1
    ∧ commit_gate (detectionCycle st eph usernames client now1 delay).1
        (detectionCycle (detectionCycle st eph usernames client now1 delay).1
          (detectionCycle st eph usernames client now1 delay).2.1
          usernames client now2 delay).1
      = false
    ∧ (∀ s : String, has_meaningful_change s s = false)
    ∧ (∀ st1 st2 : StateDoc, st1.accounts.Perm st2.accounts →
        (st1.accounts.map Prod.fst).Nodup → st1.version = st2.version →
        st1.pending_analytics = st2.pending_analytics →
        st1.completed_analytics = st2.completed_analytics →
        serialize_state st1 = serialize_state st2) := by
  have hsettled : ∀ u ∈ usernames,
      AccountSettled (detectionCycle st eph usernames client now1 delay).1 u (client u) :=
    foldl_detectStep_settles client now1 delay usernames (st, eph, [])
  have hid : (detectionCycle (detectionCycle st eph usernames client now1 delay).1
      (detectionCycle st eph usernames client now1 delay).2.1
      usernames client now2 delay).1
      = (detectionCycle st eph usernames client now1 delay).1 :=
    foldl_detectStep_identity client now2 delay usernames _ hsettled
  refine ⟨hid, by rw [hid], ?_, fun s => by simp [has_meaningful_change], ?_⟩
  · simp [commit_gate, has_meaningful_change, hid]
  · intro st1 st2 hp hn hv hpend hcomp
    exact serialize_state_key_order st1 st2 hp hn hv hpend hcomp

/-- Witness for claim C3: key-order independence at two concrete documents
whose account items are permutations of each other. -/
theorem c3_witness :
    serialize_state ⟨1, [("@b", ⟨["y"]⟩), ("@a", ⟨["x"]⟩)], [], []⟩
      = serialize_state ⟨1, [("@a", ⟨["x"]⟩), ("@b", ⟨["y"]⟩)], [], []⟩ :=
  (c3_second_run_no_commit default_state default_ephemeral []
      (fun _ => .unexpected) 0 0 24).2.2.2.2
    ⟨1, [("@b", ⟨["y"]⟩), ("@a", ⟨["x"]⟩)], [], []⟩
    ⟨1, [("@a", ⟨["x"]⟩), ("@b", ⟨["y"]⟩)], [], []⟩
    (by decide) (by decide) rfl rfl rfl

/-! ### Claim C2 — the dedup invariant over detection cycles -/

end TikTokMonitor
